import Mathlib

/-!
Verification development for the Box2Pix network (`models/box2pix.py`).

The network is shallowly embedded: tensors are rank-4 arrays of exact
rationals (batch, channel, height, width) carried by a total data function
together with explicit shape fields; every PyTorch primitive the source uses
(`nn.Conv2d`, `nn.ConvTranspose2d`, `nn.MaxPool2d` with `ceil_mode=True`,
Python slicing, in-place `+=`, `torch.cat`) is given its documented
semantics.  External collaborator blocks (torchvision `BasicConv2d` and
`Inception`) are modelled by their shape contract with opaque data, as the
spec prescribes.  Fallible steps (in-place addition with mismatched shapes,
construction with invalid sizes) return `Option`/`Except`.
-/

/-- Rank-4 tensor of exact rationals, axes (batch `n`, channel `c`, height
`h`, width `w`).  Entries are given by a total function; the value at
indices outside the shape never influences any operation below. -/
structure Tensor where
  n : ℕ
  c : ℕ
  h : ℕ
  w : ℕ
  data : ℕ → ℕ → ℕ → ℕ → ℚ

/-- The all-zero tensor of a given shape (e.g. `torch.zeros(n, c, h, w)`). -/
def Tensor.zeros (n c h w : ℕ) : Tensor :=
  ⟨n, c, h, w, fun _ _ _ _ => 0⟩

/-- A tensor whose every entry (at every index) is zero. -/
def IsZeroData (t : Tensor) : Prop :=
  ∀ b c i j, t.data b c i j = 0

/-- Output spatial size of `nn.Conv2d`: `floor((h + 2*p - k) / s) + 1`
(natural subtraction; PyTorch raises for sizes where `h + 2*p < k`, which
the claims below never reach). -/
def convOutDim (h k s p : ℕ) : ℕ := (h + 2 * p - k) / s + 1

/-- Output spatial size of `nn.MaxPool2d(..., ceil_mode=True)`:
`ceil((h + 2*p - k) / s) + 1`.  For the kernel/stride pairs used by the
source (k ≥ s) the ceil-mode size never needs PyTorch's last-window
adjustment.  Caveat: PyTorch raises "Output size is too small" when the
computed size would be 0 (inputs with `h + 2*p < k`, reached by images
with a spatial dimension below 15 somewhere in the encoder); this total
natural-subtraction formula returns 1 there instead, so every theorem
below that asserts a completed forward pass restricts its input sizes to
at least 64, where the real pools never raise. -/
def poolOutDimCeil (h k s p : ℕ) : ℕ := (h + 2 * p - k + (s - 1)) / s + 1

/-- Semantics of `nn.Conv2d(cin, cout, kernel_size=k)` with stride 1, padding 0 and a
bias, exactly as the eight 1×1 score projections are declared in the
source (lines 60-63 and 69-72). -/
def conv2d (cin cout k : ℕ) (weight : ℕ → ℕ → ℕ → ℕ → ℚ) (bias : ℕ → ℚ)
    (x : Tensor) : Tensor :=
  { n := x.n, c := cout,
    h := convOutDim x.h k 1 0, w := convOutDim x.w k 1 0,
    data := fun b co i j =>
      bias co + ∑ ci ∈ Finset.range cin, ∑ a ∈ Finset.range k,
        ∑ u ∈ Finset.range k, weight co ci a u * x.data b ci (i + a) (j + u) }

/-- Semantics of `nn.ConvTranspose2d(cin, cout, kernel_size=k, stride=s,
bias=False)` (padding 0): output spatial size `(h-1)*s + k`; entry `(i,j)` accumulates
`weight[ci][co][i - s*a][j - s*u]` over the input positions `(a,u)` whose
kernel window covers `(i,j)`.  The weight is laid out `(cin, cout, k, k)`
as in PyTorch. -/
def convTranspose2d (cin cout k s : ℕ) (weight : ℕ → ℕ → ℕ → ℕ → ℚ)
    (x : Tensor) : Tensor :=
  { n := x.n, c := cout,
    h := (x.h - 1) * s + k, w := (x.w - 1) * s + k,
    data := fun b co i j =>
      ∑ ci ∈ Finset.range cin, ∑ a ∈ Finset.range x.h, ∑ u ∈ Finset.range x.w,
        if s * a ≤ i ∧ i - s * a < k ∧ s * u ≤ j ∧ j - s * u < k then
          weight ci co (i - s * a) (j - s * u) * x.data b ci a u
        else 0 }

/-- Semantics of `nn.MaxPool2d(k, stride=s, padding=p, ceil_mode=True)`:
ceil-mode
output size; each entry is the maximum over the window elements that fall
inside the input (padding contributes `-inf` in PyTorch, hence never wins;
the window element at the window's padded origin `(s*i, s*j)` is always in
range for the sizes produced here).  Like `poolOutDimCeil`, this is total
where PyTorch raises for pathologically small inputs, which the theorems
below avoid by bounding input sizes. -/
def maxPool2dCeil (k s p : ℕ) (x : Tensor) : Tensor :=
  { n := x.n, c := x.c,
    h := poolOutDimCeil x.h k s p, w := poolOutDimCeil x.w k s p,
    data := fun b c i j =>
      (List.range (k * k)).foldl
        (fun m t =>
          let a := s * i + t / k
          let u := s * j + t % k
          if p ≤ a ∧ a - p < x.h ∧ p ≤ u ∧ u - p < x.w then
            max m (x.data b c (a - p) (u - p))
          else m)
        (x.data b c (s * i) (s * j)) }

/-- Python tensor slicing `t[:, :, top : top + hh, left : left + ww]`:
slices clamp to the actual bounds and never raise. -/
def sliceHW (x : Tensor) (top hh left ww : ℕ) : Tensor :=
  { n := x.n, c := x.c,
    h := min x.h (top + hh) - min x.h top,
    w := min x.w (left + ww) - min x.w left,
    data := fun b c i j => x.data b c (top + i) (left + j) }

/-- In-place `x += y`: PyTorch performs the addition only when `y`
broadcasts to `x`'s (unchanged) shape — every dimension of `y` equals the
matching dimension of `x` or is 1; otherwise it raises a runtime
shape-mismatch error, modelled as `none`. -/
def addInPlace (x y : Tensor) : Option Tensor :=
  if (y.n = x.n ∨ y.n = 1) ∧ (y.c = x.c ∨ y.c = 1) ∧
     (y.h = x.h ∨ y.h = 1) ∧ (y.w = x.w ∨ y.w = 1) then
    some { n := x.n, c := x.c, h := x.h, w := x.w,
           data := fun b c i j =>
             x.data b c i j +
               y.data (if y.n = 1 then 0 else b) (if y.c = 1 then 0 else c)
                 (if y.h = 1 then 0 else i) (if y.w = 1 then 0 else j) }
  else none

/-- Semantics of `torch.cat([x, y], 1)`: concatenation along the channel
axis. -/
def cat2 (x y : Tensor) : Tensor :=
  { n := x.n, c := x.c + y.c, h := x.h, w := x.w,
    data := fun b c i j =>
      if c < x.c then x.data b c i j else y.data b (c - x.c) i j }

/-!  Layer records.  Each record owns its parameters, as the corresponding
`nn.Module` does. -/

/-- External torchvision `BasicConv2d` (Conv2d with `bias=False`, then
BatchNorm2d, then ReLU) — an external collaborator that the spec fixes only
by its shape contract: output channels `cout`, spatial dims by the standard
convolution formula for kernel `k`, stride `s`, padding `p`.  Its values
are a pure function of the input tensor and its own (randomly initialised)
parameters, modelled by the opaque `out` field.  Its inner convolution has
no bias — a fact of the torchvision definition that the weight initialiser
of the source interacts with. -/
structure BasicConv2d where
  cin : ℕ
  cout : ℕ
  k : ℕ
  s : ℕ
  p : ℕ
  out : Tensor → ℕ → ℕ → ℕ → ℕ → ℚ

def BasicConv2d.apply (l : BasicConv2d) (x : Tensor) : Tensor :=
  { n := x.n, c := l.cout,
    h := convOutDim x.h l.k l.s l.p, w := convOutDim x.w l.k l.s l.p,
    data := l.out x }

/-- Record for `nn.Conv2d` with bias, as declared for the score
projections. -/
structure Conv2dLayer where
  cin : ℕ
  cout : ℕ
  k : ℕ
  weight : ℕ → ℕ → ℕ → ℕ → ℚ
  bias : ℕ → ℚ

def Conv2dLayer.apply (l : Conv2dLayer) (x : Tensor) : Tensor :=
  conv2d l.cin l.cout l.k l.weight l.bias x

/-- Record for `nn.ConvTranspose2d(..., bias=False)`, as declared for the upsampling
operators. -/
structure ConvT2dLayer where
  cin : ℕ
  cout : ℕ
  k : ℕ
  s : ℕ
  weight : ℕ → ℕ → ℕ → ℕ → ℚ

def ConvT2dLayer.apply (l : ConvT2dLayer) (x : Tensor) : Tensor :=
  convTranspose2d l.cin l.cout l.k l.s l.weight x

/-- Four-branch inception block (1×1; 1×1 then 3×3; 1×1 then a second
spatial kernel; pool then 1×1), the
common shape of torchvision's `Inception` (an external collaborator) and
of the source's own `Inception2` (lines 182-208), whose only difference is
the third branch's spatial kernel (3×3 padding 1 vs 5×5 padding 2).  The
outputs of the four branches are concatenated on the channel axis. -/
structure InceptionBlock where
  branch1 : BasicConv2d
  branch2a : BasicConv2d
  branch2b : BasicConv2d
  branch3a : BasicConv2d
  branch3b : BasicConv2d
  branch4 : BasicConv2d

/-- Forward pass `Inception2.forward` (source lines 201-208): run the four branches on
the same input and concatenate on channels; branch 4 first applies
`nn.MaxPool2d(kernel_size=3, stride=1, padding=1, ceil_mode=True)`. -/
def InceptionBlock.apply (m : InceptionBlock) (x : Tensor) : Tensor :=
  let b1 := m.branch1.apply x
  let b2 := m.branch2b.apply (m.branch2a.apply x)
  let b3 := m.branch3b.apply (m.branch3a.apply x)
  let b4 := m.branch4.apply (maxPool2dCeil 3 1 1 x)
  cat2 (cat2 (cat2 b1 b2) b3) b4

/-- The convolution submodules of an inception block, as `self.modules()`
enumerates them. -/
def InceptionBlock.convs (m : InceptionBlock) : List BasicConv2d :=
  [m.branch1, m.branch2a, m.branch2b, m.branch3a, m.branch3b, m.branch4]

/-!  The bilinear upsampling kernel.  `utils.helper.get_upsampling_weight`
is repository code that is not among the sources; it is modelled from the
spec below. -/

/-- Bilinear kernel scale: `factor = (k + 1) // 2` (integer division). -/
def upFactor (k : ℕ) : ℚ := ((k + 1) / 2 : ℕ)

/-- Bilinear kernel centre: `factor - 1` for odd `k`, `factor - 0.5` for
even `k`. -/
def upCenter (k : ℕ) : ℚ :=
  if k % 2 = 1 then upFactor k - 1 else upFactor k - 1 / 2

/-- One axis of the bilinear interpolation filter:
`1 - |q - center| / factor`. -/
def biliFilt1 (k q : ℕ) : ℚ := 1 - |(q : ℚ) - upCenter k| / upFactor k

/-- Modelled from the spec: `utils.helper.get_upsampling_weight(channels,
kernel_size)` (imported at source line 8, used at line 90) is repository
code missing from the sources.  Per the spec it is the exact
bilinear-interpolation kernel, "computed from its kernel size and channel
count, with each output channel receiving an independent copy of the same
2D bilinear filter restricted to its own input channel (a
grouped/depthwise-like diagonal structure — channel i of input maps only
to channel i of output)"; it fills a `(channels, channels, k, k)` array
whose diagonal `(i, i)` planes hold the separable 2D bilinear filter and
whose off-diagonal planes are zero. -/
def get_upsampling_weight (channels k : ℕ) : ℕ → ℕ → ℕ → ℕ → ℚ :=
  fun ci co p q =>
    if ci = co ∧ ci < channels then biliFilt1 k p * biliFilt1 k q else 0

/-!  The detection head.  `models.multibox.MultiBox` is repository code
that is not among the sources; it is modelled from the spec below. -/

/-- Rank-3 tensor (batch, box, component), the output format of the
detection head. -/
structure Tensor3 where
  n : ℕ
  m : ℕ
  d : ℕ
  data : ℕ → ℕ → ℕ → ℚ

/-- Modelled from the spec: `models.multibox.MultiBox` (the DetectionHead)
is repository code missing from the sources.  Per the spec it is an
external collaborator consuming the list of tapped feature tensors and
returning a location tensor whose third axis has length 4 and a confidence
tensor whose third axis has length `num_classes`; its anchor count and
values are opaque.  Per the spec's construction contract, `num_classes`
must be at least 1 and an invalid value fails fast at construction. -/
structure MultiBox where
  numClasses : ℕ
  boxes : List Tensor → ℕ
  locData : List Tensor → ℕ → ℕ → ℕ → ℚ
  confData : List Tensor → ℕ → ℕ → ℕ → ℚ

def MultiBox.apply (m : MultiBox) (xs : List Tensor) : Tensor3 × Tensor3 :=
  let nb := match xs with
    | [] => 0
    | t :: _ => t.n
  (⟨nb, m.boxes xs, 4, m.locData xs⟩,
   ⟨nb, m.boxes xs, m.numClasses, m.confData xs⟩)

/-!  The Box2Pix network. -/

/-- The `Box2Pix` module (source lines 22-179): every sub-module declared
in `__init__`, with the source's field names. -/
structure Box2Pix where
  transform_input : Bool
  conv1 : BasicConv2d
  conv2 : BasicConv2d
  conv3 : BasicConv2d
  inception3a : InceptionBlock
  inception3b : InceptionBlock
  inception4a : InceptionBlock
  inception4b : InceptionBlock
  inception4c : InceptionBlock
  inception4d : InceptionBlock
  inception4e : InceptionBlock
  inception5a : InceptionBlock
  inception5b : InceptionBlock
  inception6a : InceptionBlock
  inception6b : InceptionBlock
  inception7a : InceptionBlock
  inception7b : InceptionBlock
  sem_score3b : Conv2dLayer
  sem_score4e : Conv2dLayer
  sem_score5b : Conv2dLayer
  sem_score6b : Conv2dLayer
  sem_upscore : ConvT2dLayer
  sem_upscore2 : ConvT2dLayer
  sem_upscore4 : ConvT2dLayer
  sem_upscore8 : ConvT2dLayer
  offs_score3b : Conv2dLayer
  offs_score4e : Conv2dLayer
  offs_score5b : Conv2dLayer
  offs_score6b : Conv2dLayer
  offs_upscore : ConvT2dLayer
  offs_upscore2 : ConvT2dLayer
  offs_upscore4 : ConvT2dLayer
  offs_upscore8 : ConvT2dLayer
  multibox : MultiBox

/-- The remap `Box2Pix._transform_input` (source lines 102-107): per-channel affine
remap of the three input channels; the floating constants are modelled as
exact rationals. -/
def transformInputTensor (x : Tensor) : Tensor :=
  { x with data := fun b c i j =>
      if c = 0 then x.data b 0 i j * (229 / 1000 / (1 / 2)) + (485 / 1000 - 1 / 2) / (1 / 2)
      else if c = 1 then x.data b 1 i j * (224 / 1000 / (1 / 2)) + (456 / 1000 - 1 / 2) / (1 / 2)
      else if c = 2 then x.data b 2 i j * (225 / 1000 / (1 / 2)) + (406 / 1000 - 1 / 2) / (1 / 2)
      else x.data b c i j }

/-- The encoder part of `Box2Pix.forward` (source lines 113-143): the
strictly sequential stem/inception pipeline, returning the five retained
intermediate tensors `(inception3b, inception4e, inception5b, inception6b,
inception7b)`. -/
def Box2Pix.encode (net : Box2Pix) (x0 : Tensor) :
    Tensor × Tensor × Tensor × Tensor × Tensor :=
  let x := if net.transform_input then transformInputTensor x0 else x0
  let x := net.conv1.apply x
  let x := maxPool2dCeil 3 2 0 x
  let x := net.conv2.apply x
  let x := net.conv3.apply x
  let x := maxPool2dCeil 3 2 0 x
  let x := net.inception3a.apply x
  let i3b := net.inception3b.apply x
  let x := maxPool2dCeil 3 2 0 i3b
  let x := net.inception4a.apply x
  let x := net.inception4b.apply x
  let x := net.inception4c.apply x
  let x := net.inception4d.apply x
  let i4e := net.inception4e.apply x
  let x := maxPool2dCeil 2 2 0 i4e
  let x := net.inception5a.apply x
  let i5b := net.inception5b.apply x
  let x := maxPool2dCeil 2 2 0 i5b
  let x := net.inception6a.apply x
  let i6b := net.inception6b.apply x
  let x := maxPool2dCeil 2 2 0 i6b
  let x := net.inception7a.apply x
  let i7b := net.inception7b.apply x
  (i3b, i4e, i5b, i6b, i7b)

/-- One factor-2 fusion step of the dense decoding paths (spec §4.3 steps
2-4; source lines 149-151 and the two analogous triples): upsample the
coarser map with the kernel-4/stride-2 transpose convolution, crop the
candidate with the fixed 1-pixel top-left offset to the finer score
tensor's height/width, then add the finer score tensor in place. -/
def fuseStep (up : ConvT2dLayer) (coarse fine : Tensor) : Option Tensor :=
  addInPlace (sliceHW (up.apply coarse) 1 fine.h 1 fine.w) fine

/-- The dense decoding procedure shared (with different layer instances) by
the semantics path (source lines 147-161) and the offsets path (source
lines 163-177): project the four taps with the 1×1 score convolutions,
fuse deepest→shallowest three times, apply the kernel-16/stride-8 final
upsample, and crop with the fixed 4-pixel top-left offset to the original
input height/width `(sh, sw)`. -/
def decodePath (score3L score4L score5L score6L : Conv2dLayer)
    (up up2 up4 up8 : ConvT2dLayer)
    (t3 t4 t5 t6 : Tensor) (sh sw : ℕ) : Option Tensor :=
  match fuseStep up (score6L.apply t6) (score5L.apply t5) with
  | none => none
  | some fused5 =>
    match fuseStep up2 fused5 (score4L.apply t4) with
    | none => none
    | some fused4 =>
      match fuseStep up4 fused4 (score3L.apply t3) with
      | none => none
      | some fused3 => some (sliceHW (up8.apply fused3) 4 sh 4 sw)

/-- The semantics decoding path of `forward` (source lines 147-161), as a
function of the four encoder tensors it reads and the input spatial size. -/
def Box2Pix.decodeSem (net : Box2Pix) (i3b i4e i5b i6b : Tensor)
    (sh sw : ℕ) : Option Tensor :=
  decodePath net.sem_score3b net.sem_score4e net.sem_score5b net.sem_score6b
    net.sem_upscore net.sem_upscore2 net.sem_upscore4 net.sem_upscore8
    i3b i4e i5b i6b sh sw

/-- The offsets decoding path of `forward` (source lines 163-177). -/
def Box2Pix.decodeOffs (net : Box2Pix) (i3b i4e i5b i6b : Tensor)
    (sh sw : ℕ) : Option Tensor :=
  decodePath net.offs_score3b net.offs_score4e net.offs_score5b net.offs_score6b
    net.offs_upscore net.offs_upscore2 net.offs_upscore4 net.offs_upscore8
    i3b i4e i5b i6b sh sw

/-- The forward pass `Box2Pix.forward` (source lines 109-179): run the encoder, pass the
`feature_maps` list `[inception4e, inception5b, inception6b, inception7b]`
to the detection head, run the two dense decoding paths on
`(inception3b, inception4e, inception5b, inception6b)` and the saved input
size, and return `(loc_preds, conf_preds, semantics, offsets)`.  A shape
error raised by an in-place fusion add propagates as `none`. -/
def Box2Pix.forward (net : Box2Pix) (x : Tensor) :
    Option (Tensor3 × Tensor3 × Tensor × Tensor) :=
  match net.encode x with
  | (i3b, i4e, i5b, i6b, i7b) =>
    match net.multibox.apply [i4e, i5b, i6b, i7b] with
    | (loc_preds, conf_preds) =>
      match net.decodeSem i3b i4e i5b i6b x.h x.w,
            net.decodeOffs i3b i4e i5b i6b x.h x.w with
      | some semantics, some offsets =>
        some (loc_preds, conf_preds, semantics, offsets)
      | _, _ => none

/-- The `feature_maps` list that `forward` accumulates (source lines 128,
133, 138, 143) and hands to `self.multibox` (line 145). -/
def Box2Pix.featureMaps (net : Box2Pix) (x : Tensor) : List Tensor :=
  match net.encode x with
  | (_, i4e, i5b, i6b, i7b) => [i4e, i5b, i6b, i7b]

/-- The ordered (shallow→deep) list of encoder tensors to which `forward`
applies the semantics path's 1×1 score projections (source lines 147, 148,
152, 156). -/
def Box2Pix.semTaps (net : Box2Pix) (x : Tensor) : List Tensor :=
  match net.encode x with
  | (i3b, i4e, i5b, i6b, _) => [i3b, i4e, i5b, i6b]

/-- The ordered (shallow→deep) list of encoder tensors to which `forward`
applies the offsets path's 1×1 score projections (source lines 163, 164,
168, 172). -/
def Box2Pix.offsTaps (net : Box2Pix) (x : Tensor) : List Tensor :=
  match net.encode x with
  | (i3b, i4e, i5b, i6b, _) => [i3b, i4e, i5b, i6b]

/-- The eight transpose-convolution upsampling operators of the network. -/
def Box2Pix.upscoreLayers (net : Box2Pix) : List ConvT2dLayer :=
  [net.sem_upscore, net.sem_upscore2, net.sem_upscore4, net.sem_upscore8,
   net.offs_upscore, net.offs_upscore2, net.offs_upscore4, net.offs_upscore8]

/-- All convolution submodules of the backbone (stem and inception blocks)
as `self.modules()` reaches them; each is a torchvision `BasicConv2d`
inner convolution and therefore has no bias. -/
def Box2Pix.backboneConvs (net : Box2Pix) : List BasicConv2d :=
  [net.conv1, net.conv2, net.conv3] ++
  net.inception3a.convs ++ net.inception3b.convs ++
  net.inception4a.convs ++ net.inception4b.convs ++ net.inception4c.convs ++
  net.inception4d.convs ++ net.inception4e.convs ++
  net.inception5a.convs ++ net.inception5b.convs ++
  net.inception6a.convs ++ net.inception6b.convs ++
  net.inception7a.convs ++ net.inception7b.convs

/-- The output widths of the backbone's 1×1 convolutions — the values of
`num_classes` for which `_initialize_weights` reaches
`nn.init.constant_(m.bias, 0)` on a bias-free convolution. -/
def Box2Pix.collidingCouts (net : Box2Pix) : List ℕ :=
  (net.backboneConvs.filter (fun l => l.k == 1)).map (fun l => l.cout)

/-!  Construction and weight initialisation. -/

/-- The parameter supply for everything the deterministic initialiser does
not fix: the (Xavier-)randomly initialised backbone convolutions together
with their batch norms and activations (opaque per-block output functions,
indexed by a module id), and the opaque interior of the detection head. -/
structure Params where
  back : ℕ → Tensor → ℕ → ℕ → ℕ → ℕ → ℚ
  boxes : List Tensor → ℕ
  locData : List Tensor → ℕ → ℕ → ℕ → ℚ
  confData : List Tensor → ℕ → ℕ → ℕ → ℚ

/-- Construction errors of `Box2Pix.__init__` and the `box2pix` factory. -/
inductive BuildError where
  | negativeDimension
  | multiboxInvalidClasses
  | noneBiasInit
  | invalidUrl
deriving DecidableEq

/-- A torchvision `Inception(inC, ch1x1, ch3x3red, ch3x3, ch5x5red, ch5x5,
pool_proj)` block: 1×1 reductions/projections and 3×3 spatial branches
(torchvision's third branch uses a 3×3 kernel with padding 1). -/
def mkInception (θ : Params) (pid inC c1 c3r c3 c5r c5 cp : ℕ) :
    InceptionBlock :=
  { branch1 := ⟨inC, c1, 1, 1, 0, θ.back pid⟩
    branch2a := ⟨inC, c3r, 1, 1, 0, θ.back (pid + 1)⟩
    branch2b := ⟨c3r, c3, 3, 1, 1, θ.back (pid + 2)⟩
    branch3a := ⟨inC, c5r, 1, 1, 0, θ.back (pid + 3)⟩
    branch3b := ⟨c5r, c5, 3, 1, 1, θ.back (pid + 4)⟩
    branch4 := ⟨inC, cp, 1, 1, 0, θ.back (pid + 5)⟩ }

/-- The source's `Inception2` (lines 182-199): identical to `Inception`
except that the third branch's spatial kernel is 5×5 with padding 2. -/
def mkInception2 (θ : Params) (pid inC c1 c3r c3 c5r c5 cp : ℕ) :
    InceptionBlock :=
  { branch1 := ⟨inC, c1, 1, 1, 0, θ.back pid⟩
    branch2a := ⟨inC, c3r, 1, 1, 0, θ.back (pid + 1)⟩
    branch2b := ⟨c3r, c3, 3, 1, 1, θ.back (pid + 2)⟩
    branch3a := ⟨inC, c5r, 1, 1, 0, θ.back (pid + 3)⟩
    branch3b := ⟨c5r, c5, 5, 1, 2, θ.back (pid + 4)⟩
    branch4 := ⟨inC, cp, 1, 1, 0, θ.back (pid + 5)⟩ }

/-- The module tree built by `Box2Pix.__init__` (source lines 28-79), in
its state right after `_initialize_weights` (lines 81-96) has run:

* the channel/kernel schedule of the stem and the thirteen inception
  blocks is the architectural constant table of lines 32-58;
* the eight 1×1 score projections (kernel 1, out-channels `num_classes`
  or 2) carry all-zero weight and all-zero bias (lines 84-86);
* the eight transpose convolutions carry
  `get_upsampling_weight(out_channels, kernel_size)` (lines 89-92);
* the Xavier-random weights of the backbone convolutions and the batch-norm
  affine parameters (lines 88, 93-95) are absorbed into the opaque
  per-block data of `θ`. -/
def buildBox2Pix (num_classes : ℕ) (transform_input : Bool) (θ : Params) :
    Box2Pix :=
  let zeroW : ℕ → ℕ → ℕ → ℕ → ℚ := fun _ _ _ _ => 0
  let zeroB : ℕ → ℚ := fun _ => 0
  { transform_input := transform_input
    conv1 := ⟨3, 64, 7, 2, 3, θ.back 1⟩
    conv2 := ⟨64, 64, 1, 1, 0, θ.back 2⟩
    conv3 := ⟨64, 192, 3, 1, 1, θ.back 3⟩
    inception3a := mkInception θ 10 192 64 96 128 16 32 32
    inception3b := mkInception θ 20 256 128 128 192 32 96 64
    inception4a := mkInception θ 30 480 192 96 208 16 48 64
    inception4b := mkInception θ 40 512 160 112 224 24 64 64
    inception4c := mkInception θ 50 512 128 128 256 24 64 64
    inception4d := mkInception θ 60 512 112 144 288 32 64 64
    inception4e := mkInception θ 70 528 256 160 320 32 128 128
    inception5a := mkInception θ 80 832 256 160 320 32 128 128
    inception5b := mkInception θ 90 832 384 192 384 48 128 128
    inception6a := mkInception2 θ 100 1024 256 160 320 32 128 128
    inception6b := mkInception2 θ 110 832 384 192 384 48 128 128
    inception7a := mkInception2 θ 120 1024 256 160 320 32 128 128
    inception7b := mkInception2 θ 130 832 384 192 384 48 128 128
    sem_score3b := ⟨480, num_classes, 1, zeroW, zeroB⟩
    sem_score4e := ⟨832, num_classes, 1, zeroW, zeroB⟩
    sem_score5b := ⟨1024, num_classes, 1, zeroW, zeroB⟩
    sem_score6b := ⟨1024, num_classes, 1, zeroW, zeroB⟩
    sem_upscore := ⟨num_classes, num_classes, 4, 2, get_upsampling_weight num_classes 4⟩
    sem_upscore2 := ⟨num_classes, num_classes, 4, 2, get_upsampling_weight num_classes 4⟩
    sem_upscore4 := ⟨num_classes, num_classes, 4, 2, get_upsampling_weight num_classes 4⟩
    sem_upscore8 := ⟨num_classes, num_classes, 16, 8, get_upsampling_weight num_classes 16⟩
    offs_score3b := ⟨480, 2, 1, zeroW, zeroB⟩
    offs_score4e := ⟨832, 2, 1, zeroW, zeroB⟩
    offs_score5b := ⟨1024, 2, 1, zeroW, zeroB⟩
    offs_score6b := ⟨1024, 2, 1, zeroW, zeroB⟩
    offs_upscore := ⟨2, 2, 4, 2, get_upsampling_weight 2 4⟩
    offs_upscore2 := ⟨2, 2, 4, 2, get_upsampling_weight 2 4⟩
    offs_upscore4 := ⟨2, 2, 4, 2, get_upsampling_weight 2 4⟩
    offs_upscore8 := ⟨2, 2, 16, 8, get_upsampling_weight 2 16⟩
    multibox := ⟨num_classes, θ.boxes, θ.locData, θ.confData⟩ }

/-- Construction `Box2Pix.__init__` (source lines 28-79) as a fallible
computation:

* a negative `num_classes` makes `nn.Conv2d(480, num_classes, 1)` raise
  (negative tensor dimension) — `negativeDimension`;
* `num_classes = 0` passes the layer constructors but violates the
  DetectionHead's construction contract (modelled from the spec: the head
  requires `num_classes ≥ 1` and fails fast) — `multiboxInvalidClasses`;
* for `num_classes ≥ 1`, `_initialize_weights` zeroes every kernel-1
  convolution whose `out_channels` is `num_classes` or 2 (line 84); when
  that matches a bias-free backbone convolution,
  `nn.init.constant_(m.bias, 0)` (line 86) raises on the absent bias —
  `noneBiasInit`;
* otherwise construction returns the initialised module tree. -/
def Box2Pix.init (num_classes : ℤ) (transform_input : Bool) (θ : Params) :
    Except BuildError Box2Pix :=
  if num_classes < 0 then Except.error BuildError.negativeDimension
  else
    let net := buildBox2Pix num_classes.toNat transform_input θ
    if num_classes = 0 then Except.error BuildError.multiboxInvalidClasses
    else if net.collidingCouts.any
        (fun c => (c : ℤ) == num_classes || c == 2) then
      Except.error BuildError.noneBiasInit
    else Except.ok net

/-- The URL constant passed to `model_zoo.load_url` at source line 16: the
empty string. -/
def emptyUrl : String := ""

/-- External `torch.utils.model_zoo.load_url`: downloading requires a URL
with a scheme, so loading from the empty URL always raises.  Only the
empty-URL case is ever exercised by the source. -/
def loadUrl (url : String) : Except BuildError Unit :=
  if url = emptyUrl then Except.error BuildError.invalidUrl else Except.ok ()

/-- Applying `model.load_state_dict(...)` on the (never obtained) downloaded state
dict; unreachable in the factory because the empty-URL load raises
first. -/
def loadStateDict (net : Box2Pix) (_sd : Unit) : Box2Pix := net

/-- The `box2pix` factory (source lines 11-19).  `transform_input` stands
for the optional `transform_input` keyword argument: the pretrained branch
defaults it to `True` when absent, the plain branch constructs with the
`Box2Pix.__init__` default `False`. -/
def box2pix (num_classes : ℤ) (pretrained : Bool)
    (transform_input : Option Bool) (θ : Params) : Except BuildError Box2Pix :=
  if pretrained then
    match Box2Pix.init num_classes (transform_input.getD true) θ with
    | Except.error e => Except.error e
    | Except.ok model =>
      match loadUrl emptyUrl with
      | Except.error e => Except.error e
      | Except.ok sd => Except.ok (loadStateDict model sd)
  else Box2Pix.init num_classes (transform_input.getD false) θ

/-- Whether an `Except`-valued construction returned a module. -/
def buildOk : Except BuildError Box2Pix → Bool
  | Except.ok _ => true
  | Except.error _ => false

/-- The all-zero parameter supply, a concrete witness environment. -/
def θ₀ : Params :=
  ⟨fun _ _ _ _ _ _ => 0, fun _ => 0, fun _ _ _ _ => 0, fun _ _ _ _ => 0⟩

/-- A concrete freshly constructed network with 11 classes. -/
def net₀ : Box2Pix := buildBox2Pix 11 false θ₀

/-!  Spatial–dimension bookkeeping of the encoder.  Each function is the
composite of the per-stage output-size formulas that the operations above
compute. -/

/-- Size map of `nn.MaxPool2d(3, stride=2, ceil_mode=True)`. -/
def poolD3 (h : ℕ) : ℕ := poolOutDimCeil h 3 2 0

/-- Size map of `nn.MaxPool2d(2, stride=2, ceil_mode=True)`. -/
def poolD2 (h : ℕ) : ℕ := poolOutDimCeil h 2 2 0

/-- Size map of an inception block (its 1×1 first branch). -/
def incD (h : ℕ) : ℕ := convOutDim h 1 1 0

/-- Height/width of `inception3b`'s output for input size `h`. -/
def dim3b (h : ℕ) : ℕ :=
  incD (incD (poolD3 (convOutDim (convOutDim (poolD3 (convOutDim h 7 2 3)) 1 1 0) 3 1 1)))

/-- Height/width of `inception4e`'s output for input size `h`. -/
def dim4e (h : ℕ) : ℕ := incD (incD (incD (incD (incD (poolD3 (dim3b h))))))

/-- Height/width of `inception5b`'s output for input size `h`. -/
def dim5b (h : ℕ) : ℕ := incD (incD (poolD2 (dim4e h)))

/-- Height/width of `inception6b`'s output for input size `h`. -/
def dim6b (h : ℕ) : ℕ := incD (incD (poolD2 (dim5b h)))

/-- Height/width of `inception7b`'s output for input size `h`. -/
def dim7b (h : ℕ) : ℕ := incD (incD (poolD2 (dim6b h)))

lemma dim3b_pos (h : ℕ) : 1 ≤ dim3b h := by
  unfold dim3b incD poolD3 convOutDim poolOutDimCeil; omega

lemma dim4e_pos (h : ℕ) : 1 ≤ dim4e h := by
  unfold dim4e incD poolD3 convOutDim poolOutDimCeil; omega

lemma dim5b_pos (h : ℕ) : 1 ≤ dim5b h := by
  unfold dim5b incD poolD2 convOutDim poolOutDimCeil; omega

lemma dim6b_pos (h : ℕ) : 1 ≤ dim6b h := by
  unfold dim6b incD poolD2 convOutDim poolOutDimCeil; omega

/-- Ceil-mode pooling loses at most "half": the pre-pool size is at most
`2*post + 1`, which is exactly what the decoder's 1-offset crops need. -/
lemma rel56 (h : ℕ) : dim5b h ≤ 2 * dim6b h + 1 := by
  unfold dim6b incD poolD2 convOutDim poolOutDimCeil; omega

lemma rel45 (h : ℕ) : dim4e h ≤ 2 * dim5b h + 1 := by
  unfold dim5b incD poolD2 convOutDim poolOutDimCeil; omega

lemma rel34 (h : ℕ) : dim3b h ≤ 2 * dim4e h + 1 := by
  unfold dim4e incD poolD3 convOutDim poolOutDimCeil; omega

/-- For input sizes avoiding the residues 5 and 6 modulo 8, the stride-8
tap is large enough for the final 4-offset crop to reach the full input
size. -/
lemma finalBound (H : ℕ) (h5 : H % 8 ≠ 5) (h6 : H % 8 ≠ 6) :
    H ≤ 8 * dim3b H + 4 := by
  unfold dim3b incD poolD3 convOutDim poolOutDimCeil; omega

/-!  Fusion-step lemmas. -/

/-- A successful in-place add, with its result made explicit. -/
lemma addInPlace_some (x y : Tensor)
    (h1 : y.n = x.n ∨ y.n = 1) (h2 : y.c = x.c ∨ y.c = 1)
    (h3 : y.h = x.h ∨ y.h = 1) (h4 : y.w = x.w ∨ y.w = 1) :
    addInPlace x y = some
      { n := x.n, c := x.c, h := x.h, w := x.w,
        data := fun b c i j =>
          x.data b c i j +
            y.data (if y.n = 1 then 0 else b) (if y.c = 1 then 0 else c)
              (if y.h = 1 then 0 else i) (if y.w = 1 then 0 else j) } := by
  unfold addInPlace
  rw [if_pos ⟨h1, h2, h3, h4⟩]

/-- A factor-2 fusion step succeeds and yields the finer tensor's spatial
size whenever the finer size is at most `2*coarse + 1` — the invariant
ceil-mode pooling maintains. -/
lemma fuseStep_eq (up : ConvT2dLayer) (coarse fine : Tensor)
    (hk : up.k = 4) (hs : up.s = 2)
    (hn : fine.n = coarse.n) (hc : fine.c = up.cout)
    (hh : fine.h ≤ 2 * coarse.h + 1) (hw : fine.w ≤ 2 * coarse.w + 1) :
    ∃ z, fuseStep up coarse fine = some z ∧
      z.n = coarse.n ∧ z.c = up.cout ∧ z.h = fine.h ∧ z.w = fine.w := by
  have hslh : (sliceHW (up.apply coarse) 1 fine.h 1 fine.w).h = fine.h := by
    show min ((coarse.h - 1) * up.s + up.k) (1 + fine.h) -
      min ((coarse.h - 1) * up.s + up.k) 1 = fine.h
    rw [hk, hs]; omega
  have hslw : (sliceHW (up.apply coarse) 1 fine.h 1 fine.w).w = fine.w := by
    show min ((coarse.w - 1) * up.s + up.k) (1 + fine.w) -
      min ((coarse.w - 1) * up.s + up.k) 1 = fine.w
    rw [hk, hs]; omega
  have hadd := addInPlace_some (sliceHW (up.apply coarse) 1 fine.h 1 fine.w) fine
    (Or.inl hn) (Or.inl hc) (Or.inl hslh.symm) (Or.inl hslw.symm)
  exact ⟨_, hadd, rfl, rfl, hslh, hslw⟩

/-- When the finer tensor is strictly larger than the cropped candidate,
the crop silently truncates and the subsequent in-place add raises: the
fusion step fails (loudly, at the add). -/
lemma fuseStep_none (up : ConvT2dLayer) (coarse fine : Tensor)
    (hk : up.k = 4) (hs : up.s = 2)
    (hc1 : 1 ≤ coarse.h) (hmis : 2 * coarse.h + 1 < fine.h) :
    fuseStep up coarse fine = none := by
  have hslh : (sliceHW (up.apply coarse) 1 fine.h 1 fine.w).h = 2 * coarse.h + 1 := by
    show min ((coarse.h - 1) * up.s + up.k) (1 + fine.h) -
      min ((coarse.h - 1) * up.s + up.k) 1 = 2 * coarse.h + 1
    rw [hk, hs]; omega
  unfold fuseStep addInPlace
  rw [if_neg]
  intro hcond
  rw [hslh] at hcond
  omega

lemma convScoreH (L : Conv2dLayer) (t : Tensor) (hk : L.k = 1) (ht : 1 ≤ t.h) :
    (L.apply t).h = t.h := by
  show convOutDim t.h L.k 1 0 = t.h
  rw [hk]; unfold convOutDim; omega

lemma convScoreW (L : Conv2dLayer) (t : Tensor) (hk : L.k = 1) (ht : 1 ≤ t.w) :
    (L.apply t).w = t.w := by
  show convOutDim t.w L.k 1 0 = t.w
  rw [hk]; unfold convOutDim; omega

lemma decodePath_eq (L3 L4 L5 L6 : Conv2dLayer) (U U2 U4 U8 : ConvT2dLayer) (C : ℕ)
    (hL3 : L3.k = 1) (hL4 : L4.k = 1) (hL5 : L5.k = 1) (hL6 : L6.k = 1)
    (hc3 : L3.cout = C) (hc4 : L4.cout = C) (hc5 : L5.cout = C) (hc6 : L6.cout = C)
    (hU : U.k = 4 ∧ U.s = 2 ∧ U.cout = C)
    (hU2 : U2.k = 4 ∧ U2.s = 2 ∧ U2.cout = C)
    (hU4 : U4.k = 4 ∧ U4.s = 2 ∧ U4.cout = C)
    (hU8 : U8.k = 16 ∧ U8.s = 8 ∧ U8.cout = C)
    (t3 t4 t5 t6 : Tensor) (sh sw : ℕ)
    (hn3 : t3.n = t6.n) (hn4 : t4.n = t6.n) (hn5 : t5.n = t6.n)
    (h3h : 1 ≤ t3.h) (h3w : 1 ≤ t3.w) (h4h : 1 ≤ t4.h) (h4w : 1 ≤ t4.w)
    (h5h : 1 ≤ t5.h) (h5w : 1 ≤ t5.w) (h6h : 1 ≤ t6.h) (h6w : 1 ≤ t6.w)
    (r56h : t5.h ≤ 2 * t6.h + 1) (r56w : t5.w ≤ 2 * t6.w + 1)
    (r45h : t4.h ≤ 2 * t5.h + 1) (r45w : t4.w ≤ 2 * t5.w + 1)
    (r34h : t3.h ≤ 2 * t4.h + 1) (r34w : t3.w ≤ 2 * t4.w + 1) :
    ∃ r, decodePath L3 L4 L5 L6 U U2 U4 U8 t3 t4 t5 t6 sh sw = some r ∧
      r.n = t6.n ∧ r.c = C ∧
      r.h = min (8 * t3.h + 8) (4 + sh) - 4 ∧
      r.w = min (8 * t3.w + 8) (4 + sw) - 4 := by
  obtain ⟨hUk, hUs, hUc⟩ := hU
  obtain ⟨hU2k, hU2s, hU2c⟩ := hU2
  obtain ⟨hU4k, hU4s, hU4c⟩ := hU4
  obtain ⟨hU8k, hU8s, hU8c⟩ := hU8
  obtain ⟨f5, hf5, hf5n, hf5c, hf5h, hf5w⟩ :=
    fuseStep_eq U (L6.apply t6) (L5.apply t5) hUk hUs hn5 (hc5.trans hUc.symm)
      (by rw [convScoreH L5 t5 hL5 h5h, convScoreH L6 t6 hL6 h6h]; exact r56h)
      (by rw [convScoreW L5 t5 hL5 h5w, convScoreW L6 t6 hL6 h6w]; exact r56w)
  rw [convScoreH L5 t5 hL5 h5h] at hf5h
  rw [convScoreW L5 t5 hL5 h5w] at hf5w
  obtain ⟨f4, hf4, hf4n, hf4c, hf4h, hf4w⟩ :=
    fuseStep_eq U2 f5 (L4.apply t4) hU2k hU2s (hn4.trans (hf5n.trans rfl).symm)
      (hc4.trans hU2c.symm)
      (by rw [convScoreH L4 t4 hL4 h4h, hf5h]; omega)
      (by rw [convScoreW L4 t4 hL4 h4w, hf5w]; omega)
  rw [convScoreH L4 t4 hL4 h4h] at hf4h
  rw [convScoreW L4 t4 hL4 h4w] at hf4w
  obtain ⟨f3, hf3, hf3n, hf3c, hf3h, hf3w⟩ :=
    fuseStep_eq U4 f4 (L3.apply t3) hU4k hU4s (hn3.trans (hf4n.trans hf5n).symm)
      (hc3.trans hU4c.symm)
      (by rw [convScoreH L3 t3 hL3 h3h, hf4h]; omega)
      (by rw [convScoreW L3 t3 hL3 h3w, hf4w]; omega)
  rw [convScoreH L3 t3 hL3 h3h] at hf3h
  rw [convScoreW L3 t3 hL3 h3w] at hf3w
  unfold decodePath
  rw [hf5]
  dsimp only
  rw [hf4]
  dsimp only
  rw [hf3]
  dsimp only
  refine ⟨_, rfl, ?_, ?_, ?_, ?_⟩
  · show (U8.apply f3).n = t6.n
    show f3.n = t6.n
    rw [hf3n, hf4n, hf5n]
    rfl
  · show (U8.apply f3).c = C
    show U8.cout = C
    exact hU8c
  · show min ((f3.h - 1) * U8.s + U8.k) (4 + sh) -
      min ((f3.h - 1) * U8.s + U8.k) 4 = min (8 * t3.h + 8) (4 + sh) - 4
    rw [hU8s, hU8k, hf3h]
    omega
  · show min ((f3.w - 1) * U8.s + U8.k) (4 + sw) -
      min ((f3.w - 1) * U8.s + U8.k) 4 = min (8 * t3.w + 8) (4 + sw) - 4
    rw [hU8s, hU8k, hf3w]
    omega

/-!  Zero propagation: a zero-initialised score head outputs zero on any
input, and upsampling, cropping and summing zero tensors yields zero. -/

lemma conv2d_zero (cin cout k : ℕ) (weight : ℕ → ℕ → ℕ → ℕ → ℚ)
    (bias : ℕ → ℚ) (x : Tensor)
    (hw : ∀ a b c d, weight a b c d = 0) (hb : ∀ a, bias a = 0) :
    IsZeroData (conv2d cin cout k weight bias x) := by
  intro b c i j
  simp [conv2d, hw, hb]

lemma convTranspose2d_zero (cin cout k s : ℕ) (weight : ℕ → ℕ → ℕ → ℕ → ℚ)
    (x : Tensor) (hx : IsZeroData x) :
    IsZeroData (convTranspose2d cin cout k s weight x) := by
  have hx' : ∀ b c i j, x.data b c i j = 0 := hx
  intro b c i j
  simp [convTranspose2d, hx']

lemma sliceHW_zero (x : Tensor) (top hh left ww : ℕ) (hx : IsZeroData x) :
    IsZeroData (sliceHW x top hh left ww) :=
  fun b c i j => hx b c (top + i) (left + j)

lemma addInPlace_zero (x y z : Tensor) (hx : IsZeroData x) (hy : IsZeroData y)
    (h : addInPlace x y = some z) : IsZeroData z := by
  unfold addInPlace at h
  have hx' : ∀ b c i j, x.data b c i j = 0 := hx
  have hy' : ∀ b c i j, y.data b c i j = 0 := hy
  split at h
  · cases h
    intro b c i j
    simp [hx', hy']
  · cases h

lemma fuseStep_zero (up : ConvT2dLayer) (coarse fine z : Tensor)
    (hc : IsZeroData coarse) (hf : IsZeroData fine)
    (h : fuseStep up coarse fine = some z) : IsZeroData z :=
  addInPlace_zero _ _ _
    (sliceHW_zero _ _ _ _ _ (convTranspose2d_zero _ _ _ _ _ coarse hc)) hf h

lemma decodePath_zero (L3 L4 L5 L6 : Conv2dLayer) (U U2 U4 U8 : ConvT2dLayer)
    (t3 t4 t5 t6 : Tensor) (sh sw : ℕ) (r : Tensor)
    (hw3 : ∀ a b c d, L3.weight a b c d = 0) (hb3 : ∀ a, L3.bias a = 0)
    (hw4 : ∀ a b c d, L4.weight a b c d = 0) (hb4 : ∀ a, L4.bias a = 0)
    (hw5 : ∀ a b c d, L5.weight a b c d = 0) (hb5 : ∀ a, L5.bias a = 0)
    (hw6 : ∀ a b c d, L6.weight a b c d = 0) (hb6 : ∀ a, L6.bias a = 0)
    (h : decodePath L3 L4 L5 L6 U U2 U4 U8 t3 t4 t5 t6 sh sw = some r) :
    IsZeroData r := by
  unfold decodePath at h
  split at h
  · cases h
  case _ f5 hf5 =>
    split at h
    · cases h
    case _ f4 hf4 =>
      split at h
      · cases h
      case _ f3 hf3 =>
        cases h
        have hz5 : IsZeroData f5 :=
          fuseStep_zero _ _ _ _ (conv2d_zero _ _ _ _ _ t6 hw6 hb6)
            (conv2d_zero _ _ _ _ _ t5 hw5 hb5) hf5
        have hz4 : IsZeroData f4 :=
          fuseStep_zero _ _ _ _ hz5 (conv2d_zero _ _ _ _ _ t4 hw4 hb4) hf4
        have hz3 : IsZeroData f3 :=
          fuseStep_zero _ _ _ _ hz4 (conv2d_zero _ _ _ _ _ t3 hw3 hb3) hf3
        exact sliceHW_zero _ _ _ _ _ (convTranspose2d_zero _ _ _ _ _ f3 hz3)

/-!  Shape projections of the operations, for structural reasoning. -/

@[simp] lemma basicConv2d_apply_n (l : BasicConv2d) (x : Tensor) :
    (l.apply x).n = x.n := rfl
@[simp] lemma basicConv2d_apply_c (l : BasicConv2d) (x : Tensor) :
    (l.apply x).c = l.cout := rfl
@[simp] lemma basicConv2d_apply_h (l : BasicConv2d) (x : Tensor) :
    (l.apply x).h = convOutDim x.h l.k l.s l.p := rfl
@[simp] lemma basicConv2d_apply_w (l : BasicConv2d) (x : Tensor) :
    (l.apply x).w = convOutDim x.w l.k l.s l.p := rfl

@[simp] lemma inception_apply_n (m : InceptionBlock) (x : Tensor) :
    (m.apply x).n = x.n := rfl
@[simp] lemma inception_apply_c (m : InceptionBlock) (x : Tensor) :
    (m.apply x).c =
      m.branch1.cout + m.branch2b.cout + m.branch3b.cout + m.branch4.cout := rfl
@[simp] lemma inception_apply_h (m : InceptionBlock) (x : Tensor) :
    (m.apply x).h = convOutDim x.h m.branch1.k m.branch1.s m.branch1.p := rfl
@[simp] lemma inception_apply_w (m : InceptionBlock) (x : Tensor) :
    (m.apply x).w = convOutDim x.w m.branch1.k m.branch1.s m.branch1.p := rfl

@[simp] lemma maxPool2dCeil_n (k s p : ℕ) (x : Tensor) :
    (maxPool2dCeil k s p x).n = x.n := rfl
@[simp] lemma maxPool2dCeil_c (k s p : ℕ) (x : Tensor) :
    (maxPool2dCeil k s p x).c = x.c := rfl
@[simp] lemma maxPool2dCeil_h (k s p : ℕ) (x : Tensor) :
    (maxPool2dCeil k s p x).h = poolOutDimCeil x.h k s p := rfl
@[simp] lemma maxPool2dCeil_w (k s p : ℕ) (x : Tensor) :
    (maxPool2dCeil k s p x).w = poolOutDimCeil x.w k s p := rfl

@[simp] lemma transformInputTensor_n (x : Tensor) :
    (transformInputTensor x).n = x.n := rfl
@[simp] lemma transformInputTensor_c (x : Tensor) :
    (transformInputTensor x).c = x.c := rfl
@[simp] lemma transformInputTensor_h (x : Tensor) :
    (transformInputTensor x).h = x.h := rfl
@[simp] lemma transformInputTensor_w (x : Tensor) :
    (transformInputTensor x).w = x.w := rfl

/-- Shapes of the five retained encoder tensors of a constructed network:
batch preserved, the architectural channel constants, and the nested
pool/conv size maps in both spatial axes. -/
lemma encode_built (nc : ℕ) (ti : Bool) (θ : Params) (x : Tensor) :
    ∃ i3b i4e i5b i6b i7b,
      (buildBox2Pix nc ti θ).encode x = (i3b, i4e, i5b, i6b, i7b) ∧
      i3b.n = x.n ∧ i3b.c = 480 ∧ i3b.h = dim3b x.h ∧ i3b.w = dim3b x.w ∧
      i4e.n = x.n ∧ i4e.c = 832 ∧ i4e.h = dim4e x.h ∧ i4e.w = dim4e x.w ∧
      i5b.n = x.n ∧ i5b.c = 1024 ∧ i5b.h = dim5b x.h ∧ i5b.w = dim5b x.w ∧
      i6b.n = x.n ∧ i6b.c = 1024 ∧ i6b.h = dim6b x.h ∧ i6b.w = dim6b x.w ∧
      i7b.n = x.n ∧ i7b.c = 1024 ∧ i7b.h = dim7b x.h ∧ i7b.w = dim7b x.w := by
  refine ⟨_, _, _, _, _, rfl, ?_⟩
  unfold dim7b dim6b dim5b dim4e dim3b incD poolD3 poolD2
  cases ti <;>
    refine ⟨?_, ?_, ?_, ?_, ?_, ?_, ?_, ?_, ?_, ?_,
            ?_, ?_, ?_, ?_, ?_, ?_, ?_, ?_, ?_, ?_⟩ <;>
    simp [Box2Pix.encode, buildBox2Pix, mkInception, mkInception2]

/-- Master characterisation of `forward` on a freshly constructed network,
inside the embedding's total size arithmetic: no fusion add ever
mismatches, the semantics/offsets spatial size is the input size clamped
by the stride-8 tap's upsampled extent, the channel widths are
`num_classes` and 2, and — because the score heads are zero-initialised —
both dense outputs are identically zero.  The claims only invoke the
success conjunct at input sizes of at least 64, where the real pooling
layers never raise (see `poolOutDimCeil`). -/
lemma forward_built (nc : ℕ) (ti : Bool) (θ : Params) (x : Tensor) :
    ∃ loc conf sem offs,
      (buildBox2Pix nc ti θ).forward x = some (loc, conf, sem, offs) ∧
      sem.n = x.n ∧ sem.c = nc ∧
      sem.h = min (8 * dim3b x.h + 8) (4 + x.h) - 4 ∧
      sem.w = min (8 * dim3b x.w + 8) (4 + x.w) - 4 ∧
      offs.n = x.n ∧ offs.c = 2 ∧
      offs.h = min (8 * dim3b x.h + 8) (4 + x.h) - 4 ∧
      offs.w = min (8 * dim3b x.w + 8) (4 + x.w) - 4 ∧
      IsZeroData sem ∧ IsZeroData offs := by
  obtain ⟨i3b, i4e, i5b, i6b, i7b, henc, h3n, h3c, h3h, h3w, h4n, h4c, h4h, h4w,
    h5n, h5c, h5h, h5w, h6n, h6c, h6h, h6w, h7n, h7c, h7h, h7w⟩ :=
      encode_built nc ti θ x
  set net := buildBox2Pix nc ti θ with hnet
  obtain ⟨sem, hsem, hsn, hsc, hsh, hsw⟩ :=
    decodePath_eq net.sem_score3b net.sem_score4e net.sem_score5b net.sem_score6b
      net.sem_upscore net.sem_upscore2 net.sem_upscore4 net.sem_upscore8 nc
      rfl rfl rfl rfl rfl rfl rfl rfl
      ⟨rfl, rfl, rfl⟩ ⟨rfl, rfl, rfl⟩ ⟨rfl, rfl, rfl⟩ ⟨rfl, rfl, rfl⟩
      i3b i4e i5b i6b x.h x.w
      (h3n.trans h6n.symm) (h4n.trans h6n.symm) (h5n.trans h6n.symm)
      (by rw [h3h]; exact dim3b_pos x.h) (by rw [h3w]; exact dim3b_pos x.w)
      (by rw [h4h]; exact dim4e_pos x.h) (by rw [h4w]; exact dim4e_pos x.w)
      (by rw [h5h]; exact dim5b_pos x.h) (by rw [h5w]; exact dim5b_pos x.w)
      (by rw [h6h]; exact dim6b_pos x.h) (by rw [h6w]; exact dim6b_pos x.w)
      (by rw [h5h, h6h]; exact rel56 x.h) (by rw [h5w, h6w]; exact rel56 x.w)
      (by rw [h4h, h5h]; exact rel45 x.h) (by rw [h4w, h5w]; exact rel45 x.w)
      (by rw [h3h, h4h]; exact rel34 x.h) (by rw [h3w, h4w]; exact rel34 x.w)
  obtain ⟨offs, hoffs, hon, hoc, hoh, how⟩ :=
    decodePath_eq net.offs_score3b net.offs_score4e net.offs_score5b net.offs_score6b
      net.offs_upscore net.offs_upscore2 net.offs_upscore4 net.offs_upscore8 2
      rfl rfl rfl rfl rfl rfl rfl rfl
      ⟨rfl, rfl, rfl⟩ ⟨rfl, rfl, rfl⟩ ⟨rfl, rfl, rfl⟩ ⟨rfl, rfl, rfl⟩
      i3b i4e i5b i6b x.h x.w
      (h3n.trans h6n.symm) (h4n.trans h6n.symm) (h5n.trans h6n.symm)
      (by rw [h3h]; exact dim3b_pos x.h) (by rw [h3w]; exact dim3b_pos x.w)
      (by rw [h4h]; exact dim4e_pos x.h) (by rw [h4w]; exact dim4e_pos x.w)
      (by rw [h5h]; exact dim5b_pos x.h) (by rw [h5w]; exact dim5b_pos x.w)
      (by rw [h6h]; exact dim6b_pos x.h) (by rw [h6w]; exact dim6b_pos x.w)
      (by rw [h5h, h6h]; exact rel56 x.h) (by rw [h5w, h6w]; exact rel56 x.w)
      (by rw [h4h, h5h]; exact rel45 x.h) (by rw [h4w, h5w]; exact rel45 x.w)
      (by rw [h3h, h4h]; exact rel34 x.h) (by rw [h3w, h4w]; exact rel34 x.w)
  have hsem' : net.decodeSem i3b i4e i5b i6b x.h x.w = some sem := hsem
  have hoffs' : net.decodeOffs i3b i4e i5b i6b x.h x.w = some offs := hoffs
  have hzsem : IsZeroData sem :=
    decodePath_zero _ _ _ _ _ _ _ _ i3b i4e i5b i6b x.h x.w sem
      (fun _ _ _ _ => rfl) (fun _ => rfl) (fun _ _ _ _ => rfl) (fun _ => rfl)
      (fun _ _ _ _ => rfl) (fun _ => rfl) (fun _ _ _ _ => rfl) (fun _ => rfl) hsem
  have hzoffs : IsZeroData offs :=
    decodePath_zero _ _ _ _ _ _ _ _ i3b i4e i5b i6b x.h x.w offs
      (fun _ _ _ _ => rfl) (fun _ => rfl) (fun _ _ _ _ => rfl) (fun _ => rfl)
      (fun _ _ _ _ => rfl) (fun _ => rfl) (fun _ _ _ _ => rfl) (fun _ => rfl) hoffs
  obtain ⟨loc, conf, hmb⟩ :
      ∃ l c, net.multibox.apply [i4e, i5b, i6b, i7b] = (l, c) := ⟨_, _, rfl⟩
  refine ⟨loc, conf, sem, offs, ?_, hsn.trans h6n, hsc,
    by rw [h3h] at hsh; exact hsh, by rw [h3w] at hsw; exact hsw,
    hon.trans h6n, hoc,
    by rw [h3h] at hoh; exact hoh, by rw [h3w] at how; exact how,
    hzsem, hzoffs⟩
  unfold Box2Pix.forward
  rw [henc]
  dsimp only
  rw [hmb]
  dsimp only
  rw [hsem', hoffs']

/-- Inversion of a successful construction: the returned module tree is the
initialised one. -/
lemma init_ok_eq (nc : ℤ) (ti : Bool) (θ : Params) (net : Box2Pix)
    (h : Box2Pix.init nc ti θ = Except.ok net) :
    net = buildBox2Pix nc.toNat ti θ := by
  simp only [Box2Pix.init] at h
  split_ifs at h <;> first
    | exact ((Except.ok.injEq _ _).mp h).symm
    | simp at h

/-- A fusion step with a finer operand larger than the cropped candidate
aborts at the in-place add, so the whole decode aborts. -/
lemma decodePath_none (L3 L4 L5 L6 : Conv2dLayer) (U U2 U4 U8 : ConvT2dLayer)
    (hL5 : L5.k = 1) (hL6 : L6.k = 1) (hUk : U.k = 4) (hUs : U.s = 2)
    (t3 t4 t5 t6 : Tensor) (sh sw : ℕ)
    (h6h : 1 ≤ t6.h) (hmis : 2 * t6.h + 1 < t5.h) :
    decodePath L3 L4 L5 L6 U U2 U4 U8 t3 t4 t5 t6 sh sw = none := by
  have h5h : 1 ≤ t5.h := by omega
  have hfs : fuseStep U (L6.apply t6) (L5.apply t5) = none := by
    apply fuseStep_none _ _ _ hUk hUs
    · rw [convScoreH L6 t6 hL6 h6h]; exact h6h
    · rw [convScoreH L6 t6 hL6 h6h, convScoreH L5 t5 hL5 h5h]; exact hmis
  unfold decodePath
  rw [hfs]

/-- The shape `(n, c, h, w)` of the semantics output of `forward`, when the
pass completes. -/
def semanticsDims (net : Box2Pix) (x : Tensor) : Option (ℕ × ℕ × ℕ × ℕ) :=
  (net.forward x).map (fun r => (r.2.2.1.n, r.2.2.1.c, r.2.2.1.h, r.2.2.1.w))

/-- A concrete 64×64 zero image. -/
def x64 : Tensor := Tensor.zeros 1 3 64 64

/-- C1 (amended): in every forward pass the two dense decoding paths read
the same four encoder tensors `(inception3b, inception4e, inception5b,
inception6b)` in the same shallow-to-deep order, while the detection head
reads the different ordered list `[inception4e, inception5b, inception6b,
inception7b]`; the two consumers overlap only in the middle three
tensors. -/
theorem taps_consumed_by_heads (net : Box2Pix) (x : Tensor) :
    net.semTaps x = net.offsTaps x ∧
    (match net.encode x with
     | (i3b, i4e, i5b, i6b, i7b) =>
       net.featureMaps x = [i4e, i5b, i6b, i7b] ∧
       net.semTaps x = [i3b, i4e, i5b, i6b]) :=
  ⟨rfl, rfl, rfl⟩

/-- C1 counterexample: on a 64×64 input to a freshly constructed network,
the list handed to the detection head has spatial heights `[4, 2, 1, 1]`
while the list consumed by the dense decoders has heights `[8, 4, 2, 1]` —
they are not the same four tensors, refuting "consumed identically (same
four tensors)". -/
theorem taps_differ_on_64 :
    ((net₀.featureMaps x64).map Tensor.h) ≠ ((net₀.semTaps x64).map Tensor.h) := by
  decide

/-- C2 (amended): for input sizes `H, W ≥ 64` whose residue modulo 8 avoids
5 and 6 (in particular all multiples of 64), `forward` succeeds and returns
`semantics` of shape `(N, num_classes, H, W)` and `offsets` of shape
`(N, 2, H, W)` exactly. -/
theorem forward_shapes_exact (nc : ℤ) (ti : Bool) (θ : Params) (net : Box2Pix)
    (hmk : Box2Pix.init nc ti θ = Except.ok net)
    (x : Tensor) (hxc : x.c = 3)
    (hH : 64 ≤ x.h) (hW : 64 ≤ x.w)
    (hH5 : x.h % 8 ≠ 5) (hH6 : x.h % 8 ≠ 6)
    (hW5 : x.w % 8 ≠ 5) (hW6 : x.w % 8 ≠ 6) :
    ∃ loc conf sem offs, net.forward x = some (loc, conf, sem, offs) ∧
      sem.n = x.n ∧ sem.c = nc.toNat ∧ sem.h = x.h ∧ sem.w = x.w ∧
      offs.n = x.n ∧ offs.c = 2 ∧ offs.h = x.h ∧ offs.w = x.w := by
  rw [init_ok_eq nc ti θ net hmk]
  obtain ⟨loc, conf, sem, offs, hfwd, hsn, hsc, hsh, hsw, hon, hoc, hoh, how, -, -⟩ :=
    forward_built nc.toNat ti θ x
  have hbh := finalBound x.h hH5 hH6
  have hbw := finalBound x.w hW5 hW6
  exact ⟨loc, conf, sem, offs, hfwd, hsn, hsc,
    by rw [hsh]; omega, by rw [hsw]; omega,
    hon, hoc, by rw [hoh]; omega, by rw [how]; omega⟩

/-- C2 witness at `num_classes = 11`, a 64×64 input. -/
theorem forward_shapes_exact_witness :
    ∃ loc conf sem offs, net₀.forward x64 = some (loc, conf, sem, offs) ∧
      sem.n = 1 ∧ sem.c = (11 : ℤ).toNat ∧ sem.h = 64 ∧ sem.w = 64 ∧
      offs.n = 1 ∧ offs.c = 2 ∧ offs.h = 64 ∧ offs.w = 64 :=
  forward_shapes_exact 11 false θ₀ net₀ rfl x64 rfl (by decide) (by decide)
    (by decide) (by decide) (by decide) (by decide)

/-- C2 counterexample: at input size 69×69 (≥ 64, residue 5 mod 8) the
semantics tensor measures 68×68, not 69×69 — the claimed exactness for all
`H, W ≥ 64` fails. -/
theorem forward_shape_not_input_at_69 :
    semanticsDims net₀ (Tensor.zeros 1 3 69 69) ≠ some (1, 11, 69, 69) := by
  decide

/-- C9: immediately after construction the dense outputs are exactly zero
for EVERY valid input image (3 channels, spatial size at least 64 — below
that the real ceil-mode pools raise an output-size error before any output
exists), not only the zero image: the zero-initialised score projections
annihilate their inputs, and upsampling, cropping and summing zero tensors
yields zero. -/
theorem fresh_network_dense_outputs_zero (nc : ℤ) (ti : Bool) (θ : Params)
    (net : Box2Pix) (hmk : Box2Pix.init nc ti θ = Except.ok net) (x : Tensor)
    (hxc : x.c = 3) (hH : 64 ≤ x.h) (hW : 64 ≤ x.w) :
    ∃ loc conf sem offs, net.forward x = some (loc, conf, sem, offs) ∧
      IsZeroData sem ∧ IsZeroData offs := by
  rw [init_ok_eq nc ti θ net hmk]
  obtain ⟨loc, conf, sem, offs, hfwd, -, -, -, -, -, -, -, -, hzs, hzo⟩ :=
    forward_built nc.toNat ti θ x
  exact ⟨loc, conf, sem, offs, hfwd, hzs, hzo⟩

/-- C9 witness: a freshly constructed 11-class network on a concrete
(non-zero!) 64×64 image. -/
theorem fresh_network_dense_outputs_zero_witness :
    ∃ loc conf sem offs,
      net₀.forward ⟨1, 3, 64, 64, fun _ _ _ _ => 7⟩ = some (loc, conf, sem, offs) ∧
      IsZeroData sem ∧ IsZeroData offs :=
  fresh_network_dense_outputs_zero 11 false θ₀ net₀ rfl
    ⟨1, 3, 64, 64, fun _ _ _ _ => 7⟩ rfl (by decide) (by decide)

/-- C4: immediately after construction, every 1×1 score projection of the
network (kernel 1, out-channels `num_classes` or 2) carries all-zero
weight and all-zero bias, and feeding an all-zero image of any valid size
(spatial dimensions at least 64 — below that the real ceil-mode pools
raise an output-size error before any output exists) produces exactly
all-zero semantics and offsets. -/
theorem zero_image_zero_dense_outputs (nc : ℤ) (ti : Bool) (θ : Params)
    (net : Box2Pix) (hmk : Box2Pix.init nc ti θ = Except.ok net) :
    (∀ L, L ∈ [net.sem_score3b, net.sem_score4e, net.sem_score5b, net.sem_score6b,
               net.offs_score3b, net.offs_score4e, net.offs_score5b, net.offs_score6b] →
       L.k = 1 ∧ (L.cout = nc.toNat ∨ L.cout = 2) ∧
       (∀ a b c d, L.weight a b c d = 0) ∧ (∀ a, L.bias a = 0)) ∧
    ∀ N H W, 64 ≤ H → 64 ≤ W → ∃ loc conf sem offs,
      net.forward (Tensor.zeros N 3 H W) = some (loc, conf, sem, offs) ∧
      IsZeroData sem ∧ IsZeroData offs := by
  rw [init_ok_eq nc ti θ net hmk]
  constructor
  · intro L hL
    simp only [List.mem_cons, List.not_mem_nil, or_false] at hL
    rcases hL with h | h | h | h | h | h | h | h <;> subst h <;>
      exact ⟨rfl, by first | exact Or.inl rfl | exact Or.inr rfl,
        fun _ _ _ _ => rfl, fun _ => rfl⟩
  · intro N H W _ _
    obtain ⟨loc, conf, sem, offs, hfwd, -, -, -, -, -, -, -, -, hzs, hzo⟩ :=
      forward_built nc.toNat ti θ (Tensor.zeros N 3 H W)
    exact ⟨loc, conf, sem, offs, hfwd, hzs, hzo⟩

/-- C4 witness at `num_classes = 11` and a 64×64 zero image. -/
theorem zero_image_zero_dense_outputs_witness :
    (∀ a b c d, net₀.sem_score3b.weight a b c d = 0) ∧
    ∃ loc conf sem offs,
      net₀.forward (Tensor.zeros 1 3 64 64) = some (loc, conf, sem, offs) ∧
      IsZeroData sem ∧ IsZeroData offs :=
  ⟨((zero_image_zero_dense_outputs 11 false θ₀ net₀ rfl).1 net₀.sem_score3b
      (by simp)).2.2.1,
   (zero_image_zero_dense_outputs 11 false θ₀ net₀ rfl).2 1 64 64
     (by decide) (by decide)⟩

/-- C8: `forward` is a pure function of the parameters and the input:
two calls on the same instance with the same input and no intervening
parameter mutation return bit-identical results. -/
theorem forward_deterministic (net : Box2Pix) (x : Tensor)
    (r₁ r₂ : Option (Tensor3 × Tensor3 × Tensor × Tensor))
    (h₁ : net.forward x = r₁) (h₂ : net.forward x = r₂) : r₁ = r₂ := by
  rw [← h₁, ← h₂]

/-- C8 witness: two concrete calls agree. -/
theorem forward_deterministic_witness :
    net₀.forward x64 = net₀.forward x64 :=
  forward_deterministic net₀ x64 _ _ rfl rfl

/-- C10: the factory `box2pix` with `pretrained=True` never returns a
model — after constructing it, `model_zoo.load_url` on the empty URL
raises — while the
`pretrained=False` path is exactly plain construction. -/
theorem box2pix_pretrained_always_fails (nc : ℤ) (ti : Option Bool) (θ : Params) :
    buildOk (box2pix nc true ti θ) = false ∧
    box2pix nc false ti θ = Box2Pix.init nc (ti.getD false) θ := by
  constructor
  · show buildOk (match Box2Pix.init nc (ti.getD true) θ with
      | Except.error e => Except.error e
      | Except.ok model =>
        match loadUrl emptyUrl with
        | Except.error e => Except.error e
        | Except.ok sd => Except.ok (loadStateDict model sd)) = false
    cases Box2Pix.init nc (ti.getD true) θ <;> rfl
  · rfl

/-- C6: the claim that construction succeeds for every `num_classes ≥ 1`
fails on the code: at `num_classes = 64` the initialiser's condition
`m.kernel_size[0] == 1 and m.out_channels in [num_classes, 2]` also
matches bias-free 1×1 backbone convolutions (64 is a backbone width), and
`nn.init.constant_(m.bias, 0)` raises on the absent bias, so construction
fails. -/
theorem init_fails_on_colliding_num_classes :
    Box2Pix.init 64 false θ₀ = Except.error BuildError.noneBiasInit ∧
    Box2Pix.init 11 false θ₀ = Except.ok net₀ := ⟨rfl, rfl⟩

@[simp] lemma convT2d_apply_n (l : ConvT2dLayer) (x : Tensor) :
    (l.apply x).n = x.n := rfl
@[simp] lemma convT2d_apply_c (l : ConvT2dLayer) (x : Tensor) :
    (l.apply x).c = l.cout := rfl
@[simp] lemma convT2d_apply_h (l : ConvT2dLayer) (x : Tensor) :
    (l.apply x).h = (x.h - 1) * l.s + l.k := rfl
@[simp] lemma convT2d_apply_w (l : ConvT2dLayer) (x : Tensor) :
    (l.apply x).w = (x.w - 1) * l.s + l.k := rfl

@[simp] lemma sliceHW_n (x : Tensor) (top hh left ww : ℕ) :
    (sliceHW x top hh left ww).n = x.n := rfl
@[simp] lemma sliceHW_c (x : Tensor) (top hh left ww : ℕ) :
    (sliceHW x top hh left ww).c = x.c := rfl
@[simp] lemma sliceHW_h (x : Tensor) (top hh left ww : ℕ) :
    (sliceHW x top hh left ww).h = min x.h (top + hh) - min x.h top := rfl
@[simp] lemma sliceHW_w (x : Tensor) (top hh left ww : ℕ) :
    (sliceHW x top hh left ww).w = min x.w (left + ww) - min x.w left := rfl

/-- C3 (amended): in both decoding paths every factor-2 fusion step crops
the upsampled candidate with the fixed 1-pixel top-left offset to the
finer score tensor's height/width, and — for the size relation the
ceil-mode encoder guarantees — the crop attains exactly those dimensions;
the final stride-8 upsample is cropped with the fixed 4-pixel top-left
offset and window equal to the original input size, attaining it exactly
whenever the input size is at most `8*tap + 4`. -/
theorem fusion_crop_offsets (nc : ℤ) (ti : Bool) (θ : Params) (net : Box2Pix)
    (hmk : Box2Pix.init nc ti θ = Except.ok net) :
    (∀ up, up ∈ [net.sem_upscore, net.sem_upscore2, net.sem_upscore4,
                 net.offs_upscore, net.offs_upscore2, net.offs_upscore4] →
       up.k = 4 ∧ up.s = 2 ∧
       ∀ coarse fine : Tensor,
         fine.h ≤ 2 * coarse.h + 1 → fine.w ≤ 2 * coarse.w + 1 →
         fuseStep up coarse fine =
           addInPlace (sliceHW (up.apply coarse) 1 fine.h 1 fine.w) fine ∧
         (sliceHW (up.apply coarse) 1 fine.h 1 fine.w).h = fine.h ∧
         (sliceHW (up.apply coarse) 1 fine.h 1 fine.w).w = fine.w) ∧
    (∀ up8, up8 ∈ [net.sem_upscore8, net.offs_upscore8] →
       up8.k = 16 ∧ up8.s = 8 ∧
       ∀ (f : Tensor) (sh sw : ℕ), 1 ≤ f.h → 1 ≤ f.w →
         sh ≤ 8 * f.h + 4 → sw ≤ 8 * f.w + 4 →
         (sliceHW (up8.apply f) 4 sh 4 sw).h = sh ∧
         (sliceHW (up8.apply f) 4 sh 4 sw).w = sw) := by
  rw [init_ok_eq nc ti θ net hmk]
  constructor
  · intro up hup
    simp only [List.mem_cons, List.not_mem_nil, or_false] at hup
    rcases hup with h | h | h | h | h | h <;> subst h <;>
      refine ⟨rfl, rfl, fun coarse fine hh hw => ⟨rfl, ?_, ?_⟩⟩ <;>
      · simp only [sliceHW_h, sliceHW_w, convT2d_apply_h, convT2d_apply_w,
          buildBox2Pix]
        omega
  · intro up8 hup8
    simp only [List.mem_cons, List.not_mem_nil, or_false] at hup8
    rcases hup8 with h | h <;> subst h <;>
      refine ⟨rfl, rfl, fun f sh sw hf hw hsh hsw => ⟨?_, ?_⟩⟩ <;>
      · simp only [sliceHW_h, sliceHW_w, convT2d_apply_h, convT2d_apply_w,
          buildBox2Pix]
        omega

/-- C3 witness: a concrete fusion crop attains the finer tensor's size. -/
theorem fusion_crop_offsets_witness :
    (sliceHW (net₀.sem_upscore.apply (Tensor.zeros 1 11 1 1)) 1 2 1 2).h = 2 :=
  (((fusion_crop_offsets 11 false θ₀ net₀ rfl).1 net₀.sem_upscore (by simp)).2.2
    (Tensor.zeros 1 11 1 1) (Tensor.zeros 1 11 2 2) (by decide) (by decide)).2.1

/-- C3 counterexample: at input 70×70 (residue 6 mod 8) the forward pass
completes but the final 4-offset crop does not reach the input's exact
size: the semantics tensor measures 68×68, refuting the claim that the
final crop is "to the original input's exact height and width". -/
theorem final_crop_truncates_at_70 :
    semanticsDims net₀ (Tensor.zeros 1 3 70 70) = some (1, 11, 68, 68) := by
  decide

/-- C5 (amended): Python slicing clamps, so an oversized crop window never
raises by itself; a fusion step whose finer operand exceeds the cropped
candidate fails loudly only at the subsequent in-place add (shape-mismatch
error, modelled as `none`), aborting the decode; the final crop, having no
subsequent add, silently truncates instead. -/
theorem crop_mismatch_fails_at_add (nc : ℤ) (ti : Bool) (θ : Params)
    (net : Box2Pix) (hmk : Box2Pix.init nc ti θ = Except.ok net)
    (t3 t4 t5 t6 : Tensor) (sh sw : ℕ)
    (h6h : 1 ≤ t6.h) (hmis : 2 * t6.h + 1 < t5.h) :
    net.decodeSem t3 t4 t5 t6 sh sw = none ∧
    net.decodeOffs t3 t4 t5 t6 sh sw = none := by
  rw [init_ok_eq nc ti θ net hmk]
  exact ⟨decodePath_none _ _ _ _ _ _ _ _ rfl rfl rfl rfl t3 t4 t5 t6 sh sw h6h hmis,
         decodePath_none _ _ _ _ _ _ _ _ rfl rfl rfl rfl t3 t4 t5 t6 sh sw h6h hmis⟩

/-- C5 witness: a concrete mismatched fusion aborts both paths. -/
theorem crop_mismatch_fails_at_add_witness :
    net₀.decodeSem (Tensor.zeros 1 480 1 1) (Tensor.zeros 1 832 1 1)
      (Tensor.zeros 1 1024 4 4) (Tensor.zeros 1 1024 1 1) 8 8 = none ∧
    net₀.decodeOffs (Tensor.zeros 1 480 1 1) (Tensor.zeros 1 832 1 1)
      (Tensor.zeros 1 1024 4 4) (Tensor.zeros 1 1024 1 1) 8 8 = none :=
  crop_mismatch_fails_at_add 11 false θ₀ net₀ rfl _ _ _ _ 8 8
    (by decide) (by decide)

/-- C5 counterexample: at input 77×77 the final crop window `[4, 81)`
exceeds the 80-row upsampled tensor, yet `forward` completes without any
error and silently returns a truncated 76×76 semantics tensor — refuting
"fails loudly with an explicit out-of-bounds error; never silently
truncates". -/
theorem final_crop_silently_truncates_at_77 :
    semanticsDims net₀ (Tensor.zeros 1 3 77 77) = some (1, 11, 76, 76) := by
  decide

/-!  The bilinear kernel reproduces constants: the two taps that meet at
any interior output position of a stride-`s`, kernel-`2s` transpose
convolution carry weights summing to 1. -/

lemma upFactor_two_mul (s : ℕ) (hs : 1 ≤ s) : upFactor (2 * s) = (s : ℚ) := by
  unfold upFactor
  norm_cast
  omega

lemma upCenter_two_mul (s : ℕ) (hs : 1 ≤ s) :
    upCenter (2 * s) = (s : ℚ) - 1 / 2 := by
  unfold upCenter
  rw [if_neg (by omega), upFactor_two_mul s hs]

/-- The two bilinear filter taps one stride apart sum to 1. -/
lemma biliFilt1_pair (s r : ℕ) (hs : 1 ≤ s) (hr : r < s) :
    biliFilt1 (2 * s) r + biliFilt1 (2 * s) (r + s) = 1 := by
  unfold biliFilt1
  rw [upCenter_two_mul s hs, upFactor_two_mul s hs]
  have hS : (1 : ℚ) ≤ (s : ℚ) := by exact_mod_cast hs
  have hR : (r : ℚ) + 1 ≤ (s : ℚ) := by exact_mod_cast hr
  have hR0 : (0 : ℚ) ≤ (r : ℚ) := Nat.cast_nonneg r
  have h1 : |(r : ℚ) - ((s : ℚ) - 1 / 2)| = (s : ℚ) - 1 / 2 - (r : ℚ) := by
    rw [abs_of_nonpos (by linarith)]; ring
  have h2 : |((r + s : ℕ) : ℚ) - ((s : ℚ) - 1 / 2)| = (r : ℚ) + 1 / 2 := by
    push_cast
    rw [abs_of_nonneg (by linarith)]; ring
  rw [h1, h2]
  have hS0 : (s : ℚ) ≠ 0 := by linarith
  field_simp
  ring

/-- At an interior position `s ≤ i < s*n` of a stride-`s` kernel-`2s`
transpose convolution over `n` input samples, exactly the two taps at
input positions `i/s - 1` and `i/s` contribute, and their bilinear
weights sum to 1. -/
lemma sum_biliFilt1_window (s n i : ℕ) (hs : 1 ≤ s) (hsi : s ≤ i)
    (hin : i < s * n) :
    (∑ a ∈ Finset.range n,
      if s * a ≤ i ∧ i - s * a < 2 * s then biliFilt1 (2 * s) (i - s * a)
      else 0) = 1 := by
  have hs0 : 0 < s := hs
  have hi1 : 1 ≤ i / s := (Nat.one_le_div_iff hs0).mpr hsi
  have hin' : i / s < n := (Nat.div_lt_iff_lt_mul hs0).mpr (by
    rw [mul_comm]; exact hin)
  set i0 := i / s with hi0def
  have hmod : i % s + s * i0 = i := Nat.mod_add_div i s
  have hmlt : i % s < s := Nat.mod_lt i hs0
  have hP : s * (i0 - 1) + s = s * i0 := by
    obtain ⟨t, ht⟩ : ∃ t, i0 = t + 1 := ⟨i0 - 1, by omega⟩
    rw [ht, Nat.add_sub_cancel, Nat.mul_succ]
  have hsub : ({i0 - 1, i0} : Finset ℕ) ⊆ Finset.range n := by
    intro t ht
    simp only [Finset.mem_insert, Finset.mem_singleton] at ht
    rcases ht with h | h <;> subst h <;> simp only [Finset.mem_range] <;> omega
  have hvan : ∀ a ∈ Finset.range n, a ∉ ({i0 - 1, i0} : Finset ℕ) →
      (if s * a ≤ i ∧ i - s * a < 2 * s then biliFilt1 (2 * s) (i - s * a)
       else 0) = 0 := by
    intro a _ hnot
    simp only [Finset.mem_insert, Finset.mem_singleton, not_or] at hnot
    rw [if_neg]
    intro hcond
    have hle : a ≤ i0 := by
      rw [hi0def]
      exact (Nat.le_div_iff_mul_le hs0).mpr (by rw [mul_comm]; exact hcond.1)
    have hgt : i0 < a + 2 := by
      rw [hi0def]
      apply (Nat.div_lt_iff_lt_mul hs0).mpr
      calc i < s * a + 2 * s := by omega
        _ = (a + 2) * s := by ring
    omega
  rw [← Finset.sum_subset hsub hvan]
  have hne : i0 - 1 ∉ ({i0} : Finset ℕ) := by
    simp only [Finset.mem_singleton]
    omega
  rw [Finset.sum_insert hne, Finset.sum_singleton]
  have hc1 : s * (i0 - 1) ≤ i ∧ i - s * (i0 - 1) < 2 * s := by omega
  have hc2 : s * i0 ≤ i ∧ i - s * i0 < 2 * s := by omega
  rw [if_pos hc1, if_pos hc2]
  have e1 : i - s * (i0 - 1) = i % s + s := by omega
  have e2 : i - s * i0 = i % s := by omega
  rw [e1, e2, add_comm]
  exact biliFilt1_pair s (i % s) hs hmlt

lemma sum_sum_mul_mul (nA nB : ℕ) (F G : ℕ → ℚ) (v : ℚ) :
    (∑ a ∈ Finset.range nA, ∑ u ∈ Finset.range nB, F a * G u * v) =
      (∑ a ∈ Finset.range nA, F a) * (∑ u ∈ Finset.range nB, G u) * v := by
  simp only [Finset.sum_mul, Finset.mul_sum]
  exact Finset.sum_comm

/-- A transpose convolution whose kernel is the bilinear upsampling weight
reproduces a constant input at every interior output position. -/
lemma convT_bilinear_const (L : ConvT2dLayer) (hk : L.k = 2 * L.s)
    (hs : 1 ≤ L.s) (hcc : L.cin = L.cout)
    (hw : L.weight = get_upsampling_weight L.cout L.k)
    (v : ℚ) (x : Tensor) (hconst : ∀ b c i j, x.data b c i j = v)
    (b co i j : ℕ) (hco : co < L.cout)
    (hi1 : L.s ≤ i) (hi2 : i < L.s * x.h)
    (hj1 : L.s ≤ j) (hj2 : j < L.s * x.w) :
    (L.apply x).data b co i j = v := by
  show (∑ ci ∈ Finset.range L.cin, ∑ a ∈ Finset.range x.h,
      ∑ u ∈ Finset.range x.w,
      if L.s * a ≤ i ∧ i - L.s * a < L.k ∧ L.s * u ≤ j ∧ j - L.s * u < L.k then
        L.weight ci co (i - L.s * a) (j - L.s * u) * x.data b ci a u
      else 0) = v
  have hzero : ∀ ci ∈ Finset.range L.cin, ci ≠ co →
      (∑ a ∈ Finset.range x.h, ∑ u ∈ Finset.range x.w,
        if L.s * a ≤ i ∧ i - L.s * a < L.k ∧ L.s * u ≤ j ∧ j - L.s * u < L.k then
          L.weight ci co (i - L.s * a) (j - L.s * u) * x.data b ci a u
        else 0) = 0 := by
    intro ci _ hne
    refine Finset.sum_eq_zero (fun a _ => Finset.sum_eq_zero (fun u _ => ?_))
    rw [hw]
    unfold get_upsampling_weight
    rw [if_neg (fun hc : ci = co ∧ ci < L.cout => hne hc.1)]
    split <;> ring
  rw [Finset.sum_eq_single_of_mem co (Finset.mem_range.mpr (by omega)) hzero]
  have hstep : ∀ a u : ℕ,
      (if L.s * a ≤ i ∧ i - L.s * a < L.k ∧ L.s * u ≤ j ∧ j - L.s * u < L.k then
        L.weight co co (i - L.s * a) (j - L.s * u) * x.data b co a u
      else 0) =
      (if L.s * a ≤ i ∧ i - L.s * a < 2 * L.s then
        biliFilt1 (2 * L.s) (i - L.s * a) else 0) *
      (if L.s * u ≤ j ∧ j - L.s * u < 2 * L.s then
        biliFilt1 (2 * L.s) (j - L.s * u) else 0) * v := by
    intro a u
    rw [hw, hk, hconst]
    unfold get_upsampling_weight
    by_cases hA : L.s * a ≤ i ∧ i - L.s * a < 2 * L.s <;>
      by_cases hB : L.s * u ≤ j ∧ j - L.s * u < 2 * L.s
    · rw [if_pos ⟨hA.1, hA.2, hB.1, hB.2⟩, if_pos hA, if_pos hB,
        if_pos (⟨rfl, hco⟩ : co = co ∧ co < L.cout)]
    · rw [if_neg (fun hc : L.s * a ≤ i ∧ i - L.s * a < 2 * L.s ∧ L.s * u ≤ j ∧
          j - L.s * u < 2 * L.s => hB ⟨hc.2.2.1, hc.2.2.2⟩), if_neg hB]
      ring
    · rw [if_neg (fun hc : L.s * a ≤ i ∧ i - L.s * a < 2 * L.s ∧ L.s * u ≤ j ∧
          j - L.s * u < 2 * L.s => hA ⟨hc.1, hc.2.1⟩), if_neg hA]
      ring
    · rw [if_neg (fun hc : L.s * a ≤ i ∧ i - L.s * a < 2 * L.s ∧ L.s * u ≤ j ∧
          j - L.s * u < 2 * L.s => hA ⟨hc.1, hc.2.1⟩), if_neg hA]
      ring
  rw [Finset.sum_congr rfl (fun a _ => Finset.sum_congr rfl (fun u _ => hstep a u))]
  rw [sum_sum_mul_mul]
  rw [sum_biliFilt1_window L.s x.h i hs hi1 hi2,
      sum_biliFilt1_window L.s x.w j hs hj1 hj2]
  ring

/-- C7: every transpose-convolution upsampling operator of a freshly
constructed network carries the deterministic bilinear-interpolation
kernel with the diagonal channel structure (input channel i maps only to
output channel i), and applying the initial operator to a constant-valued
input reproduces the constant at every interior output position. -/
theorem upsample_kernels_bilinear (nc : ℤ) (ti : Bool) (θ : Params)
    (net : Box2Pix) (hmk : Box2Pix.init nc ti θ = Except.ok net) :
    ∀ L, L ∈ net.upscoreLayers →
      L.k = 2 * L.s ∧ 1 ≤ L.s ∧ L.cin = L.cout ∧
      L.weight = get_upsampling_weight L.cout L.k ∧
      (∀ ci co p q, ci ≠ co → L.weight ci co p q = 0) ∧
      ∀ (v : ℚ) (x : Tensor), (∀ b c i j, x.data b c i j = v) →
        ∀ b co i j, co < L.cout →
          L.s ≤ i → i < L.s * x.h → L.s ≤ j → j < L.s * x.w →
          (L.apply x).data b co i j = v := by
  rw [init_ok_eq nc ti θ net hmk]
  intro L hL
  simp only [Box2Pix.upscoreLayers, List.mem_cons, List.not_mem_nil,
    or_false] at hL
  rcases hL with h | h | h | h | h | h | h | h <;> subst h <;>
    exact ⟨rfl, by simp [buildBox2Pix], rfl, rfl,
      fun ci co p q hne => by simp [buildBox2Pix, get_upsampling_weight, hne],
      fun v x hconst b co i j hco hi1 hi2 hj1 hj2 =>
        convT_bilinear_const _ rfl (by simp [buildBox2Pix]) rfl rfl v x hconst
          b co i j hco hi1 hi2 hj1 hj2⟩

/-- C7 witness: the first semantic upsampler of a concrete fresh network
reproduces the constant 5 at an interior position of a 2×2 constant
input. -/
theorem upsample_kernels_bilinear_witness :
    (net₀.sem_upscore.apply ⟨1, 11, 2, 2, fun _ _ _ _ => 5⟩).data 0 0 2 2 = 5 :=
  (upsample_kernels_bilinear 11 false θ₀ net₀ rfl net₀.sem_upscore
    (by simp [Box2Pix.upscoreLayers])).2.2.2.2.2 5 ⟨1, 11, 2, 2, fun _ _ _ _ => 5⟩
    (fun _ _ _ _ => rfl) 0 0 2 2 (by decide) (by decide) (by decide)
    (by decide) (by decide)
